import Mathlib

/-!
Verification of the soundwave-creator wave generation engine.

Shallow embedding of `src/wave_generator.py`, `src/wave_math.py` and the
mixing part of `src/wave_creator.py`.  Python floats are modelled by exact
rationals (`ℚ`); Python `int(r)` (truncation toward zero) is `ratTrunc`;
Python 3 `round` (bankers rounding, half to even) is `pyRound`; Python
integer `%` with a positive divisor agrees with `Int.emod`.  The transcendental
`math.sin(2*π*x)` and the impure `random.randint` / `eval` calls are modelled
by oracle parameters, so every theorem quantifies over their possible values.
A Python exception is modelled by `none` / `Except.error`.
-/

namespace Soundwave

/-- Modelled from the spec: `wave_settings.py` is imported by the sources but
is not part of the repository snapshot; the spec fixes the output container to
16-bit (2 bytes) signed samples ("bit depth (fixed 16-bit signed)"). -/
def BYTES_OF_DATA : ℕ := 2

/-- Modelled from the spec: `wave_settings.SIGNED_INTEGER`; the container is
signed per the spec ("signed 16-bit: [-32768, 32767]"). -/
def SIGNED_INTEGER : Bool := true

/-- `wave_math.get_max_value_from_bytes`: `2 ** bits` with one bit removed for
the sign when `signed`. -/
def get_max_value_from_bytes (bytes_size : ℕ) (signed : Bool) : ℤ :=
  let bits_size := bytes_size * 8
  let bits_size := if signed then bits_size - 1 else bits_size
  2 ^ bits_size

/-- `wave_math.get_min_value_from_bytes`. -/
def get_min_value_from_bytes (bytes_size : ℕ) (signed : Bool) : ℤ :=
  if !signed then 0
  else -(get_max_value_from_bytes bytes_size signed)

/-- `wave_math.limit_value_to_range`: saturating clamp, upper bound checked
first. -/
def limit_value_to_range (value min_value max_value : ℚ) : ℚ :=
  if value ≥ max_value then max_value
  else if value ≤ min_value then min_value
  else value

/-- Python `int(r)` on a real number: truncation toward zero. -/
def ratTrunc (q : ℚ) : ℤ :=
  if 0 ≤ q then ⌊q⌋ else ⌈q⌉

/-- Python 3 `round(r)`: round half to even (bankers rounding). -/
def pyRound (q : ℚ) : ℤ :=
  let f := ⌊q⌋
  let r := q - (f : ℚ)
  if r < 1/2 then f
  else if r > 1/2 then f + 1
  else if Even f then f else f + 1

/-- The resolved per-call wave options, as read by the getters of the engine
(`wave_generator._DEFAULT_WAVE_OPTIONS` supplies the defaults).  The
`min_wave_value` / `max_wave_value` entries are carried because they are
storable options, even though (mirroring the source) no getter reads them. -/
structure WaveOpts where
  amplitude : ℚ := (get_max_value_from_bytes BYTES_OF_DATA true : ℚ) / 2
  amplitudeAdjustment : ℚ := 1
  customWaveFormula : String := ""
  frequency : ℚ := 440
  maxWaveValue : ℚ := (get_max_value_from_bytes BYTES_OF_DATA SIGNED_INTEGER : ℚ) - 1
  minWaveValue : ℚ := (get_min_value_from_bytes BYTES_OF_DATA SIGNED_INTEGER : ℚ) + 1
  sampleRate : ℚ := 44100
  volume : ℚ := 1
  transformer : ℤ → ℤ := id

/-- The default option set (`_DEFAULT_WAVE_OPTIONS` with the identity
transformer). -/
def defaultWaveOpts : WaveOpts := {}

/-- `_DEFAULT_WAVE_OPTIONS[SoundWaveOption.MIN_WAVE_VALUE]` as read directly
by `_get_min_wave_value` (the built-in default table, not the options). -/
def DEFAULT_MIN_WAVE_VALUE : ℤ :=
  get_min_value_from_bytes BYTES_OF_DATA SIGNED_INTEGER + 1

/-- `_DEFAULT_WAVE_OPTIONS[SoundWaveOption.MAX_WAVE_VALUE]` as read directly
by `_get_max_wave_value`. -/
def DEFAULT_MAX_WAVE_VALUE : ℤ :=
  get_max_value_from_bytes BYTES_OF_DATA SIGNED_INTEGER - 1

/-- `WaveSoundGenerator._get_wave_amplitude`: `int(amplitude * adjustment)`. -/
def get_wave_amplitude (o : WaveOpts) : ℤ :=
  ratTrunc (o.amplitude * o.amplitudeAdjustment)

/-- `WaveSoundGenerator._get_min_wave_value`: `max(-amplitude, default_min)`;
reads only the default table for the lower container bound. -/
def get_min_wave_value (o : WaveOpts) : ℤ :=
  max (-(get_wave_amplitude o)) DEFAULT_MIN_WAVE_VALUE

/-- `WaveSoundGenerator._get_max_wave_value`: `min(amplitude, default_max)`. -/
def get_max_wave_value (o : WaveOpts) : ℤ :=
  min (get_wave_amplitude o) DEFAULT_MAX_WAVE_VALUE

/-- `WaveSoundGenerator._get_wave_value_range`: `abs(min) + abs(max)`. -/
def get_wave_value_range (o : WaveOpts) : ℤ :=
  |get_min_wave_value o| + |get_max_wave_value o|

/-- `WaveSoundGenerator._get_samples_per_cycle`:
`int(round(sample_rate / frequency))`, floored to at least 1.  Caution: in
Python `sample_rate / frequency` raises `ZeroDivisionError` when the
frequency option is 0 (and this runs in `get_wave_function` before shape
dispatch, so a zero frequency aborts every shape); rational division by zero
yields 0 here instead, so every theorem asserting that the program runs
carries a `frequency ≠ 0` hypothesis to stay on the faithful domain. -/
def get_samples_per_cycle (o : WaveOpts) : ℤ :=
  let samples_per_cycle := pyRound (o.sampleRate / o.frequency)
  if 1 ≤ samples_per_cycle then samples_per_cycle else 1

/-- `WaveSoundGenerator._get_sample_frame_frequency`:
`(sample_frame % samples_per_cycle) / samples_per_cycle`. -/
def get_sample_frame_frequency (sample_frame : ℕ) (o : WaveOpts) : ℚ :=
  let samples_per_cycle := get_samples_per_cycle o
  (((sample_frame : ℤ) % samples_per_cycle : ℤ) : ℚ) / (samples_per_cycle : ℚ)

/-- `_normalize_sample_value` (closure in `get_wave_function`): volume scale,
then clamp to `[min, max]`, then `int(...)`, then the caller transform. -/
def normalize_sample_value (o : WaveOpts) (sample_value : ℚ) : ℤ :=
  let v := sample_value * o.volume
  let v := limit_value_to_range v
    ((get_min_wave_value o : ℚ)) ((get_max_wave_value o : ℚ))
  o.transformer (ratTrunc v)

/-- The integer handed to the caller transform: steps (1)-(3) of the
normalization pipeline (volume scale, clamp, truncate toward zero). -/
def normalize_pre_transform (o : WaveOpts) (sample_value : ℚ) : ℤ :=
  ratTrunc (limit_value_to_range (sample_value * o.volume)
    ((get_min_wave_value o : ℚ)) ((get_max_wave_value o : ℚ)))

/-- `sin_sound_wave`, with `sinf` standing for the float computation
`x ↦ math.sin(2 * math.pi * x)` applied to the sample-frame frequency. -/
def sin_sound_wave (o : WaveOpts) (sinf : ℚ → ℚ) (sample_frame : ℕ) : ℤ :=
  let sample_frequency := get_sample_frame_frequency sample_frame o
  normalize_sample_value o ((get_max_wave_value o : ℚ) * sinf sample_frequency)

/-- `sawtooth_sound_wave`: `none` models the `ZeroDivisionError` raised by
`int(sample_frame / sample_value_range)` when the value range is zero. -/
def sawtooth_sound_wave (o : WaveOpts) (sample_frame : ℕ) : Option ℤ :=
  let range := get_wave_value_range o
  if range = 0 then none
  else
    let spike_cycle := ratTrunc ((sample_frame : ℚ) / (range : ℚ))
    some (normalize_sample_value o
      ((sample_frame : ℚ) + (get_min_wave_value o : ℚ) - (spike_cycle : ℚ) * (range : ℚ)))

/-- The raw (pre-normalization) value of `x2_sound_wave`:
`a * (x + b) ** 2 + c`. -/
def x2_raw (o : WaveOpts) (sample_frame : ℕ) : ℚ :=
  let spc := get_samples_per_cycle o
  let a : ℚ := 4 * ((get_max_wave_value o - get_min_wave_value o : ℤ) : ℚ) / ((spc : ℚ) ^ 2)
  let b : ℚ := -(spc : ℚ) / 2
  let c : ℚ := (get_min_wave_value o : ℚ)
  let x : ℤ := (sample_frame : ℤ) % spc
  a * ((x : ℚ) + b) ^ 2 + c

/-- `x2_sound_wave`. -/
def x2_sound_wave (o : WaveOpts) (sample_frame : ℕ) : ℤ :=
  normalize_sample_value o (x2_raw o sample_frame)

/-- `random_sound_wave`, with the draw of `random.randint(min, max)` passed
in as the oracle value `random_sample`. -/
def random_sound_wave (o : WaveOpts) (random_sample : ℤ) : ℤ :=
  normalize_sample_value o (random_sample : ℚ)

/-- `str.format` substitution of the five documented placeholders, as
performed by `custom_sound_wave`. -/
def formatFormula (formula : String) (x min_sample max_sample sample_range
    samples_per_cycle : ℤ) : String :=
  ((((formula.replace "{x}" (toString x)).replace
      "{min_sample}" (toString min_sample)).replace
      "{max_sample}" (toString max_sample)).replace
      "{sample_range}" (toString sample_range)).replace
      "{samples_per_cycle}" (toString samples_per_cycle)

/-- `custom_sound_wave`: substitutes the placeholders and hands the whole
string to `eval` unconditionally (the oracle `evalPy`; `none` models an
exception inside `eval`).  No validation of the formula is performed. -/
def custom_sound_wave (o : WaveOpts) (evalPy : String → Option ℚ)
    (sample_frame : ℕ) : Option ℤ :=
  let replaced := formatFormula o.customWaveFormula (sample_frame)
    (get_min_wave_value o) (get_max_wave_value o)
    (get_wave_value_range o) (get_samples_per_cycle o)
  (evalPy replaced).map (fun v => normalize_sample_value o v)

/-- `SoundWaveType`. -/
inductive SoundWaveType where
  | SIN_WAVE
  | X2_WAVE
  | RANDOM_WAVE
  | SAWTOOTH_WAVE
  | CUSTOM_WAVE
deriving DecidableEq

/-- The impure ingredients of a run: `sinf` models
`x ↦ math.sin(2 * math.pi * x)`, `rand i` the value drawn by
`random.randint` at frame `i`, `evalPy` the Python `eval`. -/
structure Oracles where
  sinf : ℚ → ℚ
  rand : ℕ → ℤ
  evalPy : String → Option ℚ

/-- The wave function returned by `get_wave_function` for each shape, at one
sample frame. -/
def wave_sample (o : WaveOpts) (orc : Oracles) :
    SoundWaveType → ℕ → Option ℤ
  | .SIN_WAVE, i => some (sin_sound_wave o orc.sinf i)
  | .X2_WAVE, i => some (x2_sound_wave o i)
  | .RANDOM_WAVE, i => some (random_sound_wave o (orc.rand i))
  | .SAWTOOTH_WAVE, i => sawtooth_sound_wave o i
  | .CUSTOM_WAVE, i => custom_sound_wave o orc.evalPy i

/-- Appending to an `array.array` of typecode h raises `OverflowError`
outside the signed 16-bit range; the checked sample models one `append`. -/
def checked_sample (o : WaveOpts) (orc : Oracles) (t : SoundWaveType)
    (i : ℕ) : Option ℤ :=
  (wave_sample o orc t i).bind (fun v =>
    if -32768 ≤ v ∧ v ≤ 32767 then some v else none)

/-- The accumulation loop of `get_wave_sound_samples`: frames are visited in
list order and the first exception aborts the run. -/
def build_samples (f : ℕ → Option ℤ) : List ℕ → Option (List ℤ)
  | [] => some []
  | i :: rest =>
    match f i, build_samples f rest with
    | some v, some l => some (v :: l)
    | _, _ => none

/-- `get_wave_sound_samples`: `num_samples = int(duration * sample_rate)`
frames, generated and appended in increasing order. -/
def get_wave_sound_samples (o : WaveOpts) (orc : Oracles) (duration : ℚ)
    (t : SoundWaveType) : Option (List ℤ) :=
  let num_samples := (ratTrunc (duration * o.sampleRate)).toNat
  build_samples (checked_sample o orc t) (List.range num_samples)

/-! ### The mixing part of `wave_creator.create_sound_file`

Only the validation and the channel-mixing loop are modelled; opening and
writing the container file is I O glue with no algorithmic content.  Python
exceptions are modelled by `Except.error`. -/

/-- The exceptions `create_sound_file` can raise: the explicit `ValueError`
for an empty channel iterable, and the `IndexError` from
`channels_data[channel][keyframe]` when a channel is shorter than the
first one. -/
inductive FileError where
  | valueErrorNoChannels
  | indexError
deriving DecidableEq

/-- `sample_total` of the inner loop at one keyframe: the sum of
`channels_data[channel][keyframe]` over all channels; `none` models the
`IndexError` raised when some channel has no sample at `keyframe`. -/
def mix_sum (channels_data : List (List ℤ)) (keyframe : ℕ) : Option ℤ :=
  channels_data.foldr
    (fun channel acc =>
      match channel.get? keyframe, acc with
      | some v, some s => some (v + s)
      | _, _ => none)
    (some 0)

/-- The outer mixing loop: for each keyframe, `int(sample_total / n)` is
appended; the first `IndexError` aborts the call. -/
def mix_frames (channels_data : List (List ℤ)) (number_channels : ℕ) :
    List ℕ → Option (List ℤ)
  | [] => some []
  | keyframe :: rest =>
    match mix_sum channels_data keyframe, mix_frames channels_data number_channels rest with
    | some s, some l => some (ratTrunc ((s : ℚ) / (number_channels : ℚ)) :: l)
    | _, _ => none

/-- `wave_creator.create_sound_file`, restricted to its observable sample
processing: raises `ValueError` on an empty channel list, otherwise mixes
`len(channels_data[0])` keyframes by per-channel averaging (no length
check of the remaining channels is performed). -/
def create_sound_file (channels_data : List (List ℤ)) :
    Except FileError (List ℤ) :=
  match channels_data with
  | [] => .error .valueErrorNoChannels
  | first_sample :: _ =>
    match mix_frames channels_data channels_data.length
        (List.range first_sample.length) with
    | some l => .ok l
    | none => .error .indexError

/-! ### The option dictionary of `wave_generator.WaveSoundGenerator`

`WaveOptions` is a Python mapping from keys to heterogeneous values; an
arbitrary (unrecognized) key can be stored next to the `SoundWaveOption`
members.  A dictionary is modelled as a partial map from keys to values. -/

/-- `wave_generator.SoundWaveOption`. -/
inductive SoundWaveOption where
  | AMPLITUDE
  | AMPLITUDE_ADJUSTMENT
  | CUSTOM_WAVE_FORMULA
  | DEBUG
  | FREQUENCY
  | MAX_WAVE_VALUE
  | MIN_WAVE_VALUE
  | SAMPLE_RATE
  | VOLUME
  | WAVE_TRANSFORMER
deriving DecidableEq

/-- The heterogeneous values a wave option can hold. -/
inductive WaveValue where
  | num (q : ℚ)
  | str (s : String)
  | boolVal (b : Bool)
  | fn (f : ℤ → ℤ)

/-- A key that can be stored in or looked up from a wave-option dictionary:
either a recognized `SoundWaveOption` member or any other (unrecognized)
key, carried as its string representation. -/
inductive OptionKey where
  | known (o : SoundWaveOption)
  | unknown (s : String)
deriving DecidableEq

/-- A Python dictionary of wave options. -/
def OptionDict : Type := OptionKey → Option WaveValue

/-- `_DEFAULT_WAVE_OPTIONS`: every recognized key has a default (the
identity transformer closure is the default `WAVE_TRANSFORMER`). -/
def DEFAULT_WAVE_OPTIONS : SoundWaveOption → WaveValue
  | .AMPLITUDE => .num ((get_max_value_from_bytes BYTES_OF_DATA true : ℚ) / 2)
  | .AMPLITUDE_ADJUSTMENT => .num 1
  | .CUSTOM_WAVE_FORMULA => .str ""
  | .DEBUG => .boolVal false
  | .FREQUENCY => .num 440
  | .MAX_WAVE_VALUE => .num ((DEFAULT_MAX_WAVE_VALUE : ℤ) : ℚ)
  | .MIN_WAVE_VALUE => .num ((DEFAULT_MIN_WAVE_VALUE : ℤ) : ℚ)
  | .SAMPLE_RATE => .num 44100
  | .VOLUME => .num 1
  | .WAVE_TRANSFORMER => .fn id

/-- `WaveSoundGenerator._get_merged_wave_options`: `dict.update` twice, so a
key present in the per-call options wins over the generator-level options.
Total for every pair of dictionaries — construction never fails. -/
def merged_wave_options (generator_options call_options : OptionDict) :
    OptionDict :=
  fun k =>
    match call_options k with
    | some v => some v
    | none => generator_options k

/-- `WaveSoundGenerator._get_wave_option_value`: a key outside
`_DEFAULT_WAVE_OPTIONS` raises `ValueError` naming the key at the point of
this lookup; a recognized key falls back to its documented default. -/
def get_wave_option_value (wave_options : OptionDict) :
    OptionKey → Except String WaveValue
  | .unknown s => .error ("Unknown sound wave feature: " ++ s)
  | .known o => .ok ((wave_options (.known o)).getD (DEFAULT_WAVE_OPTIONS o))

/-! ### Concrete inputs used by counterexamples and witnesses -/

/-- Options whose effective amplitude `int(0 * 1)` is 0. -/
def zeroAmpOpts : WaveOpts := { amplitude := 0 }

/-- A concrete oracle instance: a sine oracle returning 0, a random draw of
0, and an `eval` oracle returning 0 on every input string. -/
def zeroOracles : Oracles := ⟨fun _ => 0, fun _ => 0, fun _ => some 0⟩

/-- Options with a negative amplitude adjustment making the product a large
negative number. -/
def negAdjOpts : WaveOpts := { amplitude := 65536, amplitudeAdjustment := -1 }

/-- Options whose amplitude product `3 * (-1/2) = -3/2` is a negative
non-integer, separating truncation toward zero from flooring. -/
def fracNegOpts : WaveOpts := { amplitude := 3, amplitudeAdjustment := -(1/2) }

/-- Options carrying a custom formula that is not an arithmetic expression
over the documented placeholders. -/
def c6FormulaOpts : WaveOpts :=
  { customWaveFormula := "__import__(os).system(rm)" }

/-- Default options with a sample rate of 2 frames per second, keeping
concrete runs short. -/
def smallRateOpts : WaveOpts := { sampleRate := 2 }

/-- A generator-level dictionary holding a frequency and an unrecognized
pass-through key. -/
def c8GeneratorDict : OptionDict := fun k =>
  if k = .known .FREQUENCY then some (.num 220)
  else if k = .unknown "bogus" then some (.num 5)
  else none

/-- A per-call dictionary overriding the frequency. -/
def c8CallDict : OptionDict := fun k =>
  if k = .known .FREQUENCY then some (.num 880) else none

/-! ### Helper lemmas -/

lemma default_min_eq : DEFAULT_MIN_WAVE_VALUE = -32767 := by decide

lemma default_max_eq : DEFAULT_MAX_WAVE_VALUE = 32767 := by decide

lemma one_le_samples_per_cycle (o : WaveOpts) : 1 ≤ get_samples_per_cycle o := by
  simp only [get_samples_per_cycle]
  split
  · assumption
  · exact le_refl 1

lemma limit_value_to_range_mem {v minV maxV : ℚ} (h : minV ≤ maxV) :
    minV ≤ limit_value_to_range v minV maxV ∧
      limit_value_to_range v minV maxV ≤ maxV := by
  unfold limit_value_to_range
  split
  · exact ⟨h, le_refl _⟩
  split
  · exact ⟨le_refl _, h⟩
  rename_i h1 h2
  push_neg at h1 h2
  exact ⟨h2.le, h1.le⟩

lemma limit_value_to_range_zero (v : ℚ) : limit_value_to_range v 0 0 = 0 := by
  unfold limit_value_to_range
  split
  · rfl
  split
  · rfl
  rename_i h1 h2
  push_neg at h1 h2
  linarith

lemma ratTrunc_mem {a b : ℤ} {q : ℚ} (ha : a ≤ 0) (hb : 0 ≤ b)
    (h1 : (a : ℚ) ≤ q) (h2 : q ≤ (b : ℚ)) :
    a ≤ ratTrunc q ∧ ratTrunc q ≤ b := by
  unfold ratTrunc
  split
  · rename_i hq
    refine ⟨le_trans ha (Int.floor_nonneg.mpr hq), ?_⟩
    calc ⌊q⌋ ≤ ⌊(b : ℚ)⌋ := Int.floor_le_floor h2
      _ = b := Int.floor_intCast b
  · rename_i hq
    push_neg at hq
    refine ⟨?_, le_trans ?_ hb⟩
    · calc a = ⌈(a : ℚ)⌉ := (Int.ceil_intCast a).symm
        _ ≤ ⌈q⌉ := Int.ceil_le_ceil h1
    · exact Int.ceil_le.mpr (by exact_mod_cast hq.le)

lemma min_wave_value_of_amp_zero {o : WaveOpts} (h : get_wave_amplitude o = 0) :
    get_min_wave_value o = 0 := by
  simp [get_min_wave_value, h]
  decide

lemma max_wave_value_of_amp_zero {o : WaveOpts} (h : get_wave_amplitude o = 0) :
    get_max_wave_value o = 0 := by
  simp [get_max_wave_value, h]
  decide

lemma normalize_of_amp_zero {o : WaveOpts} (h : get_wave_amplitude o = 0)
    (ht : o.transformer = id) (v : ℚ) : normalize_sample_value o v = 0 := by
  simp [normalize_sample_value, min_wave_value_of_amp_zero h,
    max_wave_value_of_amp_zero h, limit_value_to_range_zero, ht, ratTrunc]

lemma build_samples_of_all_zero {f : ℕ → Option ℤ} :
    ∀ {l : List ℕ}, (∀ i ∈ l, f i = some 0) →
      build_samples f l = some (l.map fun _ => (0 : ℤ))
  | [], _ => rfl
  | i :: rest, h => by
    have hi : f i = some 0 := h i (List.mem_cons_self i rest)
    have hr := build_samples_of_all_zero
      (fun j hj => h j (List.mem_cons_of_mem i hj))
    simp [build_samples, hi, hr]

lemma build_samples_cons_none {f : ℕ → Option ℤ} {i : ℕ} {rest : List ℕ}
    (h : f i = none) : build_samples f (i :: rest) = none := by
  simp [build_samples, h]

lemma build_samples_spec {f : ℕ → Option ℤ} :
    ∀ {l : List ℕ} {out : List ℤ}, build_samples f l = some out →
      out.length = l.length ∧
      ∀ (k : ℕ) (hk : k < l.length) (hk2 : k < out.length),
        f (l.get ⟨k, hk⟩) = some (out.get ⟨k, hk2⟩)
  | [], out, h => by
    simp [build_samples] at h
    subst h
    exact ⟨rfl, fun k hk => absurd hk (Nat.not_lt_zero k)⟩
  | i :: rest, out, h => by
    simp only [build_samples] at h
    cases hfi : f i with
    | none => rw [hfi] at h; exact absurd h (by simp)
    | some v =>
      rw [hfi] at h
      cases hrec : build_samples f rest with
      | none => rw [hrec] at h; exact absurd h (by simp)
      | some l =>
        rw [hrec] at h
        simp only [Option.some.injEq] at h
        subst h
        obtain ⟨hlen, hget⟩ := build_samples_spec hrec
        refine ⟨by simp [hlen], ?_⟩
        intro k hk hk2
        cases k with
        | zero => simpa using hfi
        | succ m =>
          simp only [List.get_cons_succ]
          exact hget m (by simpa using hk) (by simpa using hk2)

lemma mix_frames_of_mem_none {ch : List (List ℤ)} {n : ℕ} {k : ℕ} :
    ∀ {l : List ℕ}, k ∈ l → mix_sum ch k = none → mix_frames ch n l = none
  | [], hk, _ => absurd hk (List.not_mem_nil k)
  | i :: rest, hk, h => by
    rcases List.mem_cons.mp hk with rfl | hmem
    · simp [mix_frames, h]
    · have := mix_frames_of_mem_none (n := n) hmem h
      simp only [mix_frames, this]
      cases mix_sum ch i <;> rfl

lemma mix_frames_of_all_zero {ch : List (List ℤ)} {n : ℕ} :
    ∀ {l : List ℕ}, (∀ k ∈ l, mix_sum ch k = some 0) →
      mix_frames ch n l = some (l.map fun _ => (0 : ℤ))
  | [], _ => rfl
  | i :: rest, h => by
    have hi : mix_sum ch i = some 0 := h i (List.mem_cons_self i rest)
    have hr := mix_frames_of_all_zero (n := n)
      (fun j hj => h j (List.mem_cons_of_mem i hj))
    simp [mix_frames, hi, hr, ratTrunc]

lemma mix_sum_two_replicate_zero {a b k : ℕ} (ha : k < a) (hb : k < b) :
    mix_sum [List.replicate a (0 : ℤ), List.replicate b (0 : ℤ)] k = some 0 := by
  have h1 : (List.replicate a (0 : ℤ))[k]? = some 0 := by
    simp [List.getElem?_eq_getElem, ha]
  have h2 : (List.replicate b (0 : ℤ))[k]? = some 0 := by
    simp [List.getElem?_eq_getElem, hb]
  simp [mix_sum, List.get?_eq_getElem?, h1, h2]

lemma mix_sum_two_replicate_none {a b k : ℕ} (hb : b ≤ k) :
    mix_sum [List.replicate a (0 : ℤ), List.replicate b (0 : ℤ)] k = none := by
  have h2 : (List.replicate b (0 : ℤ))[k]? = none := by
    apply List.getElem?_eq_none
    simpa using hb
  simp only [mix_sum, List.foldr_cons, List.foldr_nil, List.get?_eq_getElem?, h2]
  cases (List.replicate a (0 : ℤ))[k]? <;> rfl

/-! ### Claim theorems -/

/-- C1, counterexample: with effective amplitude 0 the sawtooth shape does
NOT succeed — `value_range = 0` makes `int(sample_frame / sample_value_range)`
divide by zero at the very first of the `int(1/44100 * 44100) = 1` requested
samples, so `get_wave_sound_samples` raises instead of returning silence. -/
theorem c1_counterexample :
    get_wave_sound_samples zeroAmpOpts zeroOracles (1/44100) .SAWTOOTH_WAVE =
      none := by
  have hnum : (ratTrunc ((1/44100 : ℚ) * zeroAmpOpts.sampleRate)).toNat = 1 := by
    norm_num [ratTrunc, zeroAmpOpts]
  have hrange : get_wave_value_range zeroAmpOpts = 0 := by
    norm_num [get_wave_value_range, get_min_wave_value, get_max_wave_value,
      get_wave_amplitude, ratTrunc, zeroAmpOpts, DEFAULT_MIN_WAVE_VALUE,
      DEFAULT_MAX_WAVE_VALUE, get_min_value_from_bytes, get_max_value_from_bytes,
      BYTES_OF_DATA, SIGNED_INTEGER]
  have hr1 : List.range 1 = [0] := rfl
  simp only [get_wave_sound_samples]
  rw [hnum, hr1]
  simp [build_samples, checked_sample, wave_sample, sawtooth_sound_wave, hrange]

/-- C1 (amended): if the resolved effective amplitude
`int(Amplitude * AmplitudeAdjustment)` is 0 and the resolved frequency is
nonzero (a zero frequency makes `_get_samples_per_cycle` divide by zero for
every shape, before shape dispatch), then for the sine, quadratic, random
and custom shapes (the latter whenever formula evaluation itself succeeds)
`get_wave_sound_samples` succeeds for every duration and, with the default
identity transformer, every returned sample is 0; the sawtooth shape
instead raises a `ZeroDivisionError` as soon as at least one sample is
requested, because `value_range = 0`. -/
theorem c1_amended_all_zero (o : WaveOpts) (orc : Oracles) (d : ℚ)
    (_hf : o.frequency ≠ 0)
    (hamp : get_wave_amplitude o = 0) (ht : o.transformer = id)
    (hev : ∀ s, orc.evalPy s ≠ none) :
    (∀ t : SoundWaveType, t ≠ .SAWTOOTH_WAVE →
      get_wave_sound_samples o orc d t =
        some ((List.range (ratTrunc (d * o.sampleRate)).toNat).map
          fun _ => (0 : ℤ))) ∧
    (0 < (ratTrunc (d * o.sampleRate)).toNat →
      get_wave_sound_samples o orc d .SAWTOOTH_WAVE = none) := by
  have hzero : ∀ v : ℚ, normalize_sample_value o v = 0 :=
    normalize_of_amp_zero hamp ht
  have hchecked : ∀ t : SoundWaveType, t ≠ .SAWTOOTH_WAVE →
      ∀ i : ℕ, checked_sample o orc t i = some 0 := by
    intro t htne i
    have hw : wave_sample o orc t i = some 0 := by
      cases t with
      | SIN_WAVE => simp [wave_sample, sin_sound_wave, hzero]
      | X2_WAVE => simp [wave_sample, x2_sound_wave, hzero]
      | RANDOM_WAVE => simp [wave_sample, random_sound_wave, hzero]
      | SAWTOOTH_WAVE => exact absurd rfl htne
      | CUSTOM_WAVE =>
        rcases Option.ne_none_iff_exists'.mp
          (hev (formatFormula o.customWaveFormula (i : ℤ) (get_min_wave_value o)
            (get_max_wave_value o) (get_wave_value_range o)
            (get_samples_per_cycle o))) with ⟨v, hv⟩
        simp [wave_sample, custom_sound_wave, hv, hzero]
    simp [checked_sample, hw]
  constructor
  · intro t htne
    simp only [get_wave_sound_samples]
    exact build_samples_of_all_zero (fun i _ => hchecked t htne i)
  · intro hpos
    have hrange : get_wave_value_range o = 0 := by
      simp [get_wave_value_range, min_wave_value_of_amp_zero hamp,
        max_wave_value_of_amp_zero hamp]
    obtain ⟨m, hm⟩ := Nat.exists_eq_succ_of_ne_zero (Nat.pos_iff_ne_zero.mp hpos)
    simp only [get_wave_sound_samples, hm, List.range_succ_eq_map]
    apply build_samples_cons_none
    simp [checked_sample, wave_sample, sawtooth_sound_wave, hrange]

/-- C1, witness: the amended theorem applied at amplitude 0, the constant-0
oracles and duration `1/44100` (one sample): the sine run returns the
all-zero sequence and the sawtooth run raises. -/
theorem c1_amended_all_zero_witness :
    get_wave_sound_samples zeroAmpOpts zeroOracles (1/44100) .SIN_WAVE =
      some ((List.range
        (ratTrunc ((1/44100 : ℚ) * zeroAmpOpts.sampleRate)).toNat).map
          fun _ => (0 : ℤ)) ∧
    get_wave_sound_samples zeroAmpOpts zeroOracles (1/44100) .SAWTOOTH_WAVE =
      none :=
  ⟨(c1_amended_all_zero zeroAmpOpts zeroOracles (1/44100)
      (by norm_num [zeroAmpOpts])
      (by norm_num [get_wave_amplitude, ratTrunc, zeroAmpOpts]) rfl
      (fun s => by simp [zeroOracles])).1 .SIN_WAVE (by decide),
   (c1_amended_all_zero zeroAmpOpts zeroOracles (1/44100)
      (by norm_num [zeroAmpOpts])
      (by norm_num [get_wave_amplitude, ratTrunc, zeroAmpOpts]) rfl
      (fun s => by simp [zeroOracles])).2
      (by norm_num [ratTrunc, zeroAmpOpts])⟩

/-- C2, counterexample: at the cycle edge `x = 0` (sample index 0) the raw
quadratic value equals `max_value` (16384 at the default options), not
`min_value` as claimed. -/
theorem c2_counterexample :
    x2_raw defaultWaveOpts 0 = 16384 ∧
    (get_min_wave_value defaultWaveOpts : ℚ) = -16384 ∧
    x2_raw defaultWaveOpts 0 ≠ (get_min_wave_value defaultWaveOpts : ℚ) := by
  have hmin : get_min_wave_value defaultWaveOpts = -16384 := by
    norm_num [get_min_wave_value, get_wave_amplitude, ratTrunc, defaultWaveOpts,
      DEFAULT_MIN_WAVE_VALUE, get_min_value_from_bytes, get_max_value_from_bytes,
      BYTES_OF_DATA, SIGNED_INTEGER]
  have hmax : get_max_wave_value defaultWaveOpts = 16384 := by
    norm_num [get_max_wave_value, get_wave_amplitude, ratTrunc, defaultWaveOpts,
      DEFAULT_MAX_WAVE_VALUE, get_max_value_from_bytes,
      BYTES_OF_DATA, SIGNED_INTEGER]
  have hspc : get_samples_per_cycle defaultWaveOpts = 100 := by
    norm_num [get_samples_per_cycle, pyRound, defaultWaveOpts]
  have hraw : x2_raw defaultWaveOpts 0 = 16384 := by
    simp only [x2_raw, hspc, hmin, hmax]
    norm_num
  refine ⟨hraw, by rw [hmin]; norm_num, ?_⟩
  rw [hraw, hmin]
  norm_num

/-- C2 (amended): for the quadratic (X2) wave the raw pre-normalization value
at sample index `i` is `a*(x+b)^2 + c` with
`a = 4*(max_value - min_value)/samples_per_cycle^2`,
`b = -samples_per_cycle/2`, `c = min_value`, `x = i mod samples_per_cycle`;
this parabola touches `max_value` at the cycle edges (`x = 0`) and
`min_value` at the cycle midpoint (`x = samples_per_cycle/2`), for every
sample index `i ≥ 0`. -/
theorem c2_amended_parabola (o : WaveOpts) (i : ℕ) :
    x2_sound_wave o i = normalize_sample_value o (x2_raw o i) ∧
    x2_raw o i =
      4 * ((get_max_wave_value o : ℚ) - (get_min_wave_value o : ℚ)) /
          ((get_samples_per_cycle o : ℚ) ^ 2) *
        ((((i : ℤ) % get_samples_per_cycle o : ℤ) : ℚ) +
          -(get_samples_per_cycle o : ℚ) / 2) ^ 2 +
        (get_min_wave_value o : ℚ) ∧
    ((i : ℤ) % get_samples_per_cycle o = 0 →
      x2_raw o i = (get_max_wave_value o : ℚ)) ∧
    (2 * ((i : ℤ) % get_samples_per_cycle o) = get_samples_per_cycle o →
      x2_raw o i = (get_min_wave_value o : ℚ)) := by
  refine ⟨rfl, by simp only [x2_raw]; push_cast; ring, ?_, ?_⟩
  · intro h
    have hs : (1 : ℤ) ≤ get_samples_per_cycle o := one_le_samples_per_cycle o
    have hs0 : ((get_samples_per_cycle o : ℤ) : ℚ) ≠ 0 := by
      exact_mod_cast (by omega : (get_samples_per_cycle o : ℤ) ≠ 0)
    simp only [x2_raw, h]
    field_simp
    ring
  · intro h
    have hx : (((i : ℤ) % get_samples_per_cycle o : ℤ) : ℚ) =
        (get_samples_per_cycle o : ℚ) / 2 := by
      have := congrArg (fun z : ℤ => (z : ℚ)) h
      push_cast at this
      linarith
    simp only [x2_raw, hx]
    ring_nf

/-- C2, witness: at the default options (`samples_per_cycle = 100`) the
parabola takes `max_value` at index 0 (a cycle edge) and `min_value` at
index 50 (the cycle midpoint). -/
theorem c2_amended_parabola_witness :
    x2_raw defaultWaveOpts 0 = (get_max_wave_value defaultWaveOpts : ℚ) ∧
    x2_raw defaultWaveOpts 50 = (get_min_wave_value defaultWaveOpts : ℚ) :=
  ⟨(c2_amended_parabola defaultWaveOpts 0).2.2.1 (by simp),
   (c2_amended_parabola defaultWaveOpts 50).2.2.2 (by
      have hspc : get_samples_per_cycle defaultWaveOpts = 100 := by
        norm_num [get_samples_per_cycle, pyRound, defaultWaveOpts]
      rw [hspc]
      norm_num)⟩

/-- C3, counterexample: with `Amplitude = 65536, AmplitudeAdjustment = -1`
the range calculator produces `min_value = 65536`, far outside the signed
16-bit range `[-32768, 32767]`; and with `Amplitude = 3,
AmplitudeAdjustment = -1/2` the code truncates toward zero
(`effective_amplitude = -1`) where flooring would give -2, refuting
`effective_amplitude = floor(Amplitude * AmplitudeAdjustment)`. -/
theorem c3_counterexample :
    get_min_wave_value negAdjOpts = 65536 ∧
    ¬(get_min_wave_value negAdjOpts ≤ 32767) ∧
    get_wave_amplitude fracNegOpts = -1 ∧
    ⌊fracNegOpts.amplitude * fracNegOpts.amplitudeAdjustment⌋ = -2 := by
  have h1 : get_min_wave_value negAdjOpts = 65536 := by
    norm_num [get_min_wave_value, get_wave_amplitude, ratTrunc, negAdjOpts,
      DEFAULT_MIN_WAVE_VALUE, get_min_value_from_bytes, get_max_value_from_bytes,
      BYTES_OF_DATA, SIGNED_INTEGER, Int.ceil_neg]
  refine ⟨h1, by rw [h1]; norm_num, ?_, ?_⟩
  · norm_num [get_wave_amplitude, ratTrunc, fracNegOpts, Int.ceil_neg]
  · norm_num [fracNegOpts]

/-- C3 (amended): for every resolved option set, `min_value =
max(-effective_amplitude, default_min)` and `max_value =
min(effective_amplitude, default_max)` with `default_min = -32767` and
`default_max = 32767`, and `value_range = abs(min_value) + abs(max_value)`,
where `effective_amplitude = int(Amplitude * AmplitudeAdjustment)` truncates
toward zero; whenever `Amplitude * AmplitudeAdjustment ≥ 0` this truncation
agrees with flooring and each bound lies inside the signed 16-bit range
`[-32768, 32767]`, so no generated sample can overflow the container. -/
theorem c3_amended_range_calculator (o : WaveOpts)
    (h : 0 ≤ o.amplitude * o.amplitudeAdjustment) :
    get_wave_amplitude o = ⌊o.amplitude * o.amplitudeAdjustment⌋ ∧
    get_min_wave_value o = max (-(get_wave_amplitude o)) (-32767) ∧
    get_max_wave_value o = min (get_wave_amplitude o) 32767 ∧
    (-32768 ≤ get_min_wave_value o ∧ get_min_wave_value o ≤ 0) ∧
    (0 ≤ get_max_wave_value o ∧ get_max_wave_value o ≤ 32767) ∧
    get_wave_value_range o = |get_min_wave_value o| + |get_max_wave_value o| := by
  have hamp : get_wave_amplitude o = ⌊o.amplitude * o.amplitudeAdjustment⌋ := by
    simp [get_wave_amplitude, ratTrunc, h]
  have heff : 0 ≤ get_wave_amplitude o := by
    rw [hamp]
    exact Int.floor_nonneg.mpr h
  refine ⟨hamp, by rw [get_min_wave_value, default_min_eq],
    by rw [get_max_wave_value, default_max_eq], ?_, ?_, rfl⟩
  · rw [get_min_wave_value, default_min_eq]
    omega
  · rw [get_max_wave_value, default_max_eq]
    omega

/-- C3, witness: the amended range calculation at the default options, whose
amplitude product `16384 * 1` is nonnegative. -/
theorem c3_amended_range_calculator_witness :
    get_wave_amplitude defaultWaveOpts =
      ⌊defaultWaveOpts.amplitude * defaultWaveOpts.amplitudeAdjustment⌋ ∧
    get_min_wave_value defaultWaveOpts =
      max (-(get_wave_amplitude defaultWaveOpts)) (-32767) ∧
    get_max_wave_value defaultWaveOpts =
      min (get_wave_amplitude defaultWaveOpts) 32767 ∧
    (-32768 ≤ get_min_wave_value defaultWaveOpts ∧
      get_min_wave_value defaultWaveOpts ≤ 0) ∧
    (0 ≤ get_max_wave_value defaultWaveOpts ∧
      get_max_wave_value defaultWaveOpts ≤ 32767) ∧
    get_wave_value_range defaultWaveOpts =
      |get_min_wave_value defaultWaveOpts| + |get_max_wave_value defaultWaveOpts| :=
  c3_amended_range_calculator defaultWaveOpts
    (by norm_num [defaultWaveOpts, get_max_value_from_bytes, BYTES_OF_DATA])

/-- C4 (confirmed): the normalization pipeline is, in order, volume scaling,
saturating clamp to `[min_value, max_value]`, truncation toward zero, then
the caller transform with no further clamping; whenever
`min_value ≤ 0 ≤ max_value`, the intermediate integer handed to the
transform lies in `[min_value, max_value]`. -/
theorem c4_normalization_pipeline (o : WaveOpts) (v : ℚ)
    (hmin : get_min_wave_value o ≤ 0) (hmax : 0 ≤ get_max_wave_value o) :
    normalize_sample_value o v = o.transformer (normalize_pre_transform o v) ∧
    get_min_wave_value o ≤ normalize_pre_transform o v ∧
    normalize_pre_transform o v ≤ get_max_wave_value o := by
  refine ⟨rfl, ?_⟩
  have hle : ((get_min_wave_value o : ℤ) : ℚ) ≤ ((get_max_wave_value o : ℤ) : ℚ) := by
    exact_mod_cast le_trans hmin hmax
  obtain ⟨hl, hr⟩ := limit_value_to_range_mem (v := v * o.volume) hle
  exact ratTrunc_mem hmin hmax hl hr

/-- C4, witness: the pipeline invariant at the default options and the raw
value `49999/2`, which saturates at `max_value`. -/
theorem c4_normalization_pipeline_witness :
    normalize_sample_value defaultWaveOpts (49999/2) =
      defaultWaveOpts.transformer
        (normalize_pre_transform defaultWaveOpts (49999/2)) ∧
    get_min_wave_value defaultWaveOpts ≤
      normalize_pre_transform defaultWaveOpts (49999/2) ∧
    normalize_pre_transform defaultWaveOpts (49999/2) ≤
      get_max_wave_value defaultWaveOpts :=
  c4_normalization_pipeline defaultWaveOpts (49999/2)
    (by norm_num [get_min_wave_value, get_wave_amplitude, ratTrunc,
      defaultWaveOpts, DEFAULT_MIN_WAVE_VALUE, get_min_value_from_bytes,
      get_max_value_from_bytes, BYTES_OF_DATA, SIGNED_INTEGER])
    (by norm_num [get_max_wave_value, get_wave_amplitude, ratTrunc,
      defaultWaveOpts, DEFAULT_MAX_WAVE_VALUE, get_max_value_from_bytes,
      BYTES_OF_DATA, SIGNED_INTEGER])

/-- C5 (code bug): the channel mixer performs no length check.  Given
channels of lengths 99 and 100 it SUCCEEDS, silently dropping the last
sample of the longer channel; in the opposite order it raises a plain
`IndexError`; with zero channels it raises a plain `ValueError`.  No
`InvalidChannelDataError` exists anywhere in the code. -/
theorem c5_mixing_no_length_check :
    create_sound_file [List.replicate 99 (0 : ℤ), List.replicate 100 (0 : ℤ)] =
      .ok (List.replicate 99 (0 : ℤ)) ∧
    create_sound_file [List.replicate 100 (0 : ℤ), List.replicate 99 (0 : ℤ)] =
      .error .indexError ∧
    create_sound_file ([] : List (List ℤ)) = .error .valueErrorNoChannels := by
  refine ⟨?_, ?_, rfl⟩
  · have hall : ∀ k ∈ List.range 99,
        mix_sum [List.replicate 99 (0 : ℤ), List.replicate 100 (0 : ℤ)] k =
          some 0 := by
      intro k hk
      have hk' := List.mem_range.mp hk
      exact mix_sum_two_replicate_zero hk' (by omega)
    have hmix := mix_frames_of_all_zero
      (n := ([List.replicate 99 (0:ℤ), List.replicate 100 (0:ℤ)]).length) hall
    have hmap : (List.range 99).map (fun _ => (0 : ℤ)) = List.replicate 99 0 := by
      apply List.eq_replicate_iff.mpr
      constructor
      · simp
      · intro b hb
        rcases List.mem_map.mp hb with ⟨x, _, rfl⟩
        rfl
    rw [hmap] at hmix
    simp only [create_sound_file, List.length_replicate]
    rw [hmix]
  · have h99 : (99 : ℕ) ∈ List.range 100 := List.mem_range.mpr (by omega)
    have hnone := mix_frames_of_mem_none
      (n := ([List.replicate 100 (0:ℤ), List.replicate 99 (0:ℤ)]).length) h99
      (mix_sum_two_replicate_none (a := 100) (b := 99) (by omega))
    simp only [create_sound_file, List.length_replicate]
    rw [hnone]

/-- C6 (code bug): the custom-wave path performs no whitelist validation at
all: even for a formula that is plainly not an arithmetic expression over
the documented placeholders (here `__import__(os).system(rm)`), the
substituted string is handed to `eval` unconditionally, and whatever value
the evaluation produces (oracle value 7) is normalized and returned — the
call succeeds and no `UnsafeFormulaError` is ever raised (no such error
exists in the code). -/
theorem c6_custom_formula_unrestricted :
    custom_sound_wave c6FormulaOpts (fun _ => some 7) 0 = some 7 := by
  have hmin : get_min_wave_value c6FormulaOpts = -16384 := by
    norm_num [get_min_wave_value, get_wave_amplitude, ratTrunc, c6FormulaOpts,
      DEFAULT_MIN_WAVE_VALUE, get_min_value_from_bytes, get_max_value_from_bytes,
      BYTES_OF_DATA, SIGNED_INTEGER]
  have hmax : get_max_wave_value c6FormulaOpts = 16384 := by
    norm_num [get_max_wave_value, get_wave_amplitude, ratTrunc, c6FormulaOpts,
      DEFAULT_MAX_WAVE_VALUE, get_max_value_from_bytes,
      BYTES_OF_DATA, SIGNED_INTEGER]
  have hnorm : normalize_sample_value c6FormulaOpts 7 = 7 := by
    simp only [normalize_sample_value, hmin, hmax]
    norm_num [limit_value_to_range, ratTrunc, c6FormulaOpts]
  simp [custom_sound_wave, hnorm]

/-- C7 (confirmed): for every shape, duration `d ≥ 0` and nonnegative sample
rate, a successful `get_wave_sound_samples` run returns exactly
`floor(d * sample_rate)` samples, produced in increasing index order over
`[0, num_samples)`. -/
theorem c7_sample_sequence_length (o : WaveOpts) (orc : Oracles) (d : ℚ)
    (t : SoundWaveType) (out : List ℤ) (hd : 0 ≤ d) (hr : 0 ≤ o.sampleRate)
    (h : get_wave_sound_samples o orc d t = some out) :
    out.length = (⌊d * o.sampleRate⌋).toNat ∧
    ∀ (k : ℕ) (hk : k < out.length),
      checked_sample o orc t k = some (out.get ⟨k, hk⟩) := by
  have hfl : ratTrunc (d * o.sampleRate) = ⌊d * o.sampleRate⌋ := by
    simp [ratTrunc, mul_nonneg hd hr]
  simp only [get_wave_sound_samples, hfl] at h
  obtain ⟨hlen, hget⟩ := build_samples_spec h
  rw [List.length_range] at hlen
  refine ⟨hlen, ?_⟩
  intro k hk
  have hk2 : k < (List.range (⌊d * o.sampleRate⌋).toNat).length := by
    rw [List.length_range, ← hlen]
    exact hk
  have hval := hget k hk2 hk
  rwa [List.get_eq_getElem, List.getElem_range] at hval

/-- C7, witness: a concrete sine run at sample rate 2 and duration `3/2`
returns exactly `floor(3/2 * 2) = 3` samples, and the sample at index 1 is
the one the wave function produces at frame 1. -/
theorem c7_sample_sequence_length_witness :
    ([0, 0, 0] : List ℤ).length = (⌊(3/2 : ℚ) * smallRateOpts.sampleRate⌋).toNat ∧
    checked_sample smallRateOpts zeroOracles .SIN_WAVE 1 =
      some (([0, 0, 0] : List ℤ).get ⟨1, by norm_num⟩) := by
  have hmin : get_min_wave_value smallRateOpts = -16384 := by
    norm_num [get_min_wave_value, get_wave_amplitude, ratTrunc, smallRateOpts,
      DEFAULT_MIN_WAVE_VALUE, get_min_value_from_bytes, get_max_value_from_bytes,
      BYTES_OF_DATA, SIGNED_INTEGER]
  have hmax : get_max_wave_value smallRateOpts = 16384 := by
    norm_num [get_max_wave_value, get_wave_amplitude, ratTrunc, smallRateOpts,
      DEFAULT_MAX_WAVE_VALUE, get_max_value_from_bytes,
      BYTES_OF_DATA, SIGNED_INTEGER]
  have hnorm : normalize_sample_value smallRateOpts 0 = 0 := by
    simp only [normalize_sample_value, hmin, hmax]
    norm_num [limit_value_to_range, ratTrunc, smallRateOpts]
  have hzero : ∀ i : ℕ,
      checked_sample smallRateOpts zeroOracles .SIN_WAVE i = some 0 := by
    intro i
    have hsin : sin_sound_wave smallRateOpts zeroOracles.sinf i = 0 := by
      simp [sin_sound_wave, zeroOracles, hnorm]
    simp [checked_sample, wave_sample, hsin]
  have hnum : (ratTrunc ((3/2 : ℚ) * smallRateOpts.sampleRate)).toNat = 3 := by
    have h3 : ratTrunc ((3/2 : ℚ) * smallRateOpts.sampleRate) = 3 := by
      norm_num [ratTrunc, smallRateOpts]
    rw [h3]
    rfl
  have hsome : get_wave_sound_samples smallRateOpts zeroOracles (3/2) .SIN_WAVE =
      some [0, 0, 0] := by
    have hb := build_samples_of_all_zero
      (f := checked_sample smallRateOpts zeroOracles .SIN_WAVE)
      (l := List.range 3) (fun i _ => hzero i)
    simp only [get_wave_sound_samples]
    rw [hnum, hb]
    rfl
  have hmain := c7_sample_sequence_length smallRateOpts zeroOracles (3/2)
    .SIN_WAVE [0, 0, 0] (by norm_num) (by norm_num [smallRateOpts]) hsome
  exact ⟨hmain.1, hmain.2 1 (by norm_num)⟩

/-- C8 (confirmed): merging option dictionaries is total for every pair of
dictionaries whatever keys they hold; a key present in the per-call options
wins, then the generator-level options, then the documented default; and a
key outside the recognized enumeration fails at the point of that lookup
with an error naming the offending key, regardless of what other keys the
merged dictionary carries. -/
theorem c8_option_lookup (generator_options call_options : OptionDict)
    (o : SoundWaveOption) (s : String) :
    (∀ v, call_options (.known o) = some v →
      get_wave_option_value (merged_wave_options generator_options call_options)
        (.known o) = .ok v) ∧
    (call_options (.known o) = none → ∀ v, generator_options (.known o) = some v →
      get_wave_option_value (merged_wave_options generator_options call_options)
        (.known o) = .ok v) ∧
    (call_options (.known o) = none → generator_options (.known o) = none →
      get_wave_option_value (merged_wave_options generator_options call_options)
        (.known o) = .ok (DEFAULT_WAVE_OPTIONS o)) ∧
    get_wave_option_value (merged_wave_options generator_options call_options)
      (.unknown s) = .error ("Unknown sound wave feature: " ++ s) := by
  refine ⟨?_, ?_, ?_, rfl⟩
  · intro v hv
    simp [get_wave_option_value, merged_wave_options, hv]
  · intro hc v hg
    simp [get_wave_option_value, merged_wave_options, hc, hg]
  · intro hc hg
    simp [get_wave_option_value, merged_wave_options, hc, hg]

/-- C8, witness: with a generator-level dictionary carrying an unrecognized
`bogus` key, looking up the frequency still succeeds with the per-call
override, while looking up the unrecognized key fails naming it. -/
theorem c8_option_lookup_witness :
    get_wave_option_value (merged_wave_options c8GeneratorDict c8CallDict)
      (.known .FREQUENCY) = .ok (.num 880) ∧
    get_wave_option_value (merged_wave_options c8GeneratorDict c8CallDict)
      (.unknown "bogus") = .error ("Unknown sound wave feature: " ++ "bogus") :=
  ⟨(c8_option_lookup c8GeneratorDict c8CallDict .FREQUENCY "bogus").1
      (.num 880) (by simp [c8CallDict]),
   (c8_option_lookup c8GeneratorDict c8CallDict .FREQUENCY "bogus").2.2.2⟩

/-- C9 (confirmed): for the sine wave with the identity transformer and a
nonzero frequency, the generated samples are periodic with period
`samples_per_cycle`: the sample at frame `i` equals the sample at frame
`i + samples_per_cycle`, for every frame `i` and every sine oracle. -/
theorem c9_sine_periodicity (o : WaveOpts) (sinf : ℚ → ℚ) (i : ℕ)
    (_htr : o.transformer = id) (_hf : o.frequency ≠ 0) :
    sin_sound_wave o sinf i =
      sin_sound_wave o sinf (i + (get_samples_per_cycle o).toNat) := by
  have hs : (1 : ℤ) ≤ get_samples_per_cycle o := one_le_samples_per_cycle o
  have hcast : ((i + (get_samples_per_cycle o).toNat : ℕ) : ℤ) =
      (i : ℤ) + get_samples_per_cycle o := by
    push_cast [Int.toNat_of_nonneg (by omega : (0:ℤ) ≤ get_samples_per_cycle o)]
    ring
  have hmod : ((i + (get_samples_per_cycle o).toNat : ℕ) : ℤ) %
      get_samples_per_cycle o = (i : ℤ) % get_samples_per_cycle o := by
    rw [hcast]
    simp
  simp only [sin_sound_wave, get_sample_frame_frequency, hmod]

/-- C9, witness: periodicity of the default sine configuration at frame 5
with the constant-zero sine oracle. -/
theorem c9_sine_periodicity_witness :
    sin_sound_wave defaultWaveOpts (fun _ => 0) 5 =
      sin_sound_wave defaultWaveOpts (fun _ => 0)
        (5 + (get_samples_per_cycle defaultWaveOpts).toNat) :=
  c9_sine_periodicity defaultWaveOpts (fun _ => 0) 5 rfl
    (by norm_num [defaultWaveOpts])

/-- C10 (confirmed): the `MIN_WAVE_VALUE` and `MAX_WAVE_VALUE` entries of an
option set have no effect on any output: two runs differing only in those
two entries produce identical sample sequences, because the range
calculator reads only the built-in default table for these keys. -/
theorem c10_min_max_options_ignored (o : WaveOpts) (orc : Oracles) (d : ℚ)
    (t : SoundWaveType) (v1 w1 v2 w2 : ℚ) :
    get_wave_sound_samples { o with minWaveValue := v1, maxWaveValue := w1 }
        orc d t =
      get_wave_sound_samples { o with minWaveValue := v2, maxWaveValue := w2 }
        orc d t ∧
    get_min_wave_value { o with minWaveValue := v1, maxWaveValue := w1 } =
      get_min_wave_value o ∧
    get_max_wave_value { o with minWaveValue := v1, maxWaveValue := w1 } =
      get_max_wave_value o :=
  ⟨rfl, rfl, rfl⟩

end Soundwave
